import Mathlib

/-!
Shallow embedding of the S3 copy-client step-function implementation
(`dss/stepfunctions/s3copyclient/implementation.py`): the chunking and
part-count computation of `setup_copy_task`, the shard-range computation and
main loop of `CopyWorkerTimedThread.run`, the checkpoint-advancing completion
callback of `make_on_complete_callback`, the byte-range computation of
`calculate_range_for_part`, and the finalizer `join`.

Machine integers are modelled as `Int` (Python integers are unbounded);
Python floor division `//` is `Int.fdiv`.  Quantities that are everywhere
non-negative in the source (part numbers, worker counts, slice indices) are
modelled as `Nat`, where `//` on non-negative operands is `Nat` division.
Storage-service calls are modelled by their recorded responses: the worker
takes the collaborator's answers (`find_next_missing_parts` result, per-part
copy outcomes, completion order of the concurrent futures) as inputs and
emits a trace of the storage operations it performs.  The completion
callback is applied once per completed future, in completion order; the
mutual-exclusion lock of the source makes each read-modify-write atomic,
which is exactly the sequential fold modelled here.
-/

namespace S3CopyClient

/-- `LAMBDA_PARALLELIZATION_FACTOR` constant (implementation.py line 19). -/
def LAMBDA_PARALLELIZATION_FACTOR : Nat := 32

/-- `CONCURRENT_REQUESTS` constant (implementation.py line 20). -/
def CONCURRENT_REQUESTS : Nat := 8

/-- Part-count computation of `setup_copy_task` (lines 54-56):
`part_count = source_size // part_size; if part_count * part_size < source_size: part_count += 1`. -/
def computePartCount (sourceSize partSize : Int) : Int :=
  let pc := Int.fdiv sourceSize partSize
  if pc * partSize < sourceSize then pc + 1 else pc

/-- The fields of the state dict written by `setup_copy_task` (lines 63-68). -/
structure SetupResult where
  sourceEtag : String
  uploadId : Option String
  size : Int
  partSize : Int
  partCount : Int
  finished : Bool
deriving Repr, DecidableEq

/-- `setup_copy_task` (lines 43-70), with the collaborator responses (source
metadata, and the session id the destination service would return from
`create_multipart_upload`) passed in as arguments: computes the part plan and
opens a multipart-upload session only when `part_count > 1`. -/
def setup_copy_task (newUploadId sourceEtag : String) (sourceSize partSize : Int) :
    SetupResult :=
  let partCount := computePartCount sourceSize partSize
  let uploadId := if partCount > 1 then some newUploadId else none
  { sourceEtag := sourceEtag, uploadId := uploadId, size := sourceSize,
    partSize := partSize, partCount := partCount, finished := false }

/-- `parts_per_branch` computation of `CopyWorkerTimedThread.run` (lines 95-96):
`(part_count + LAMBDA_PARALLELIZATION_FACTOR - 1) // LAMBDA_PARALLELIZATION_FACTOR`,
with the parallelization factor `W` a parameter. -/
def parts_per_branch (partCount W : Nat) : Nat :=
  (partCount + W - 1) / W

/-- Shard-range computation of `CopyWorkerTimedThread.run` (lines 97-98):
`next = slice_num * parts_per_branch + 1`,
`last = min(part_count, next + parts_per_branch - 1)`. -/
def shardRange (partCount sliceNum W : Nat) : Nat × Nat :=
  let ppb := parts_per_branch partCount W
  let next := sliceNum * ppb + 1
  (next, min partCount (next + ppb - 1))

/-- Body of the inner `callback` built by `make_on_complete_callback`
(lines 117-120), as written: under the state lock,
`if part_id >= next_part: next_part = part_id + 1`. -/
def onCompleteCallback (nextPart partId : Nat) : Nat :=
  if partId ≥ nextPart then partId + 1 else nextPart

/-- A Python callable registered as a future's done callback: the number of
parameters its `def` declares, and its body as a state transformer on
`next_part`. -/
structure PyCallback where
  paramCount : Nat
  body : Nat → Nat

/-- `make_on_complete_callback(part_id)` (lines 115-122): returns the inner
`callback`, declared with **zero** parameters (`def callback():`, line 116),
whose body is the guarded checkpoint advance `onCompleteCallback` for the
captured `part_id`. -/
def make_on_complete_callback (partId : Nat) : PyCallback :=
  { paramCount := 0, body := fun nextPart => onCompleteCallback nextPart partId }

/-- `concurrent.futures` done-callback invocation
(`Future._invoke_callbacks`): each registered callback is called with the
future as its **single positional argument**, inside a handler that logs
and ignores any exception the call raises.  A call whose argument count
differs from the callable's declared parameter count raises `TypeError`
before the body runs, so the invocation reaches the body only when the
declared parameter count is 1; otherwise the swallowed `TypeError` leaves
`next_part` unchanged. -/
def invokeDoneCallback (cb : PyCallback) (nextPart : Nat) : Nat :=
  if cb.paramCount = 1 then cb.body nextPart else nextPart

/-- `CopyWorkerTimedThread.calculate_range_for_part` (lines 148-156):
`start = (part_id - 1) * part_size; end = part_id * part_size;
if end >= size: end = size; end -= 1`. -/
def calculate_range_for_part (size partSize partId : Int) : Int × Int :=
  let start := (partId - 1) * partSize
  let e := partId * partSize
  let e2 := if e ≥ size then size else e
  (start, e2 - 1)

/-- The partition property of the per-part byte ranges: for parts
`1 .. part_count` of an object of `size` bytes, the range of part `p` is
`[(p-1)*part_size, min(p*part_size, size) - 1]`; consecutive ranges are
contiguous, distinct parts' ranges are disjoint (ordered), and the union of
all ranges is exactly the byte interval `[0, size - 1]`. -/
def PartRangesPartition (size partSize : Int) : Prop :=
  (∀ p : Int, 1 ≤ p → p ≤ computePartCount size partSize →
    (calculate_range_for_part size partSize p).1 = (p - 1) * partSize ∧
    (calculate_range_for_part size partSize p).2 = min (p * partSize) size - 1) ∧
  (∀ p : Int, 1 ≤ p → p + 1 ≤ computePartCount size partSize →
    (calculate_range_for_part size partSize (p + 1)).1 =
      (calculate_range_for_part size partSize p).2 + 1) ∧
  (∀ p q : Int, 1 ≤ p → p < q → q ≤ computePartCount size partSize →
    (calculate_range_for_part size partSize p).2 <
      (calculate_range_for_part size partSize q).1) ∧
  (∀ b : Int, (0 ≤ b ∧ b ≤ size - 1) ↔
    ∃ p : Int, 1 ≤ p ∧ p ≤ computePartCount size partSize ∧
      (calculate_range_for_part size partSize p).1 ≤ b ∧
      b ≤ (calculate_range_for_part size partSize p).2)

/-- The partition property the shard ranges actually satisfy, over parameters
`pc = part_count` and `W = LAMBDA_PARALLELIZATION_FACTOR`, writing
`ppb = parts_per_branch pc W = ceil(pc / W)`: the ranges are ordered and
pairwise disjoint, stay inside `[1, pc]`, cover all of `[1, pc]` using only
workers `0 .. W-1`, consecutive ranges are contiguous (each next lower bound
is the previous one plus `ppb`), every block whose unclamped end
`(i+1)*ppb` fits inside `pc` has size exactly `ppb`, block `i` is non-empty
exactly when `i * ppb + 1 ≤ pc`, and the number of non-empty blocks among
workers `0 .. W-1` is `ceil(pc / ppb)`. -/
def ShardPartition (pc W : Nat) : Prop :=
  (∀ i j : Nat, i < j → (shardRange pc i W).2 < (shardRange pc j W).1) ∧
  (∀ i p : Nat, (shardRange pc i W).1 ≤ p → p ≤ (shardRange pc i W).2 →
    1 ≤ p ∧ p ≤ pc) ∧
  (∀ p : Nat, 1 ≤ p → p ≤ pc → ∃ i : Nat, i < W ∧
    (shardRange pc i W).1 ≤ p ∧ p ≤ (shardRange pc i W).2) ∧
  (∀ i : Nat, (shardRange pc (i + 1) W).1 =
    (shardRange pc i W).1 + parts_per_branch pc W) ∧
  (∀ i : Nat, (i + 1) * parts_per_branch pc W ≤ pc →
    (shardRange pc i W).2 + 1 = (shardRange pc i W).1 + parts_per_branch pc W) ∧
  (∀ i : Nat, (shardRange pc i W).1 ≤ (shardRange pc i W).2 ↔
    i * parts_per_branch pc W + 1 ≤ pc) ∧
  (((List.range W).filter fun i =>
      (shardRange pc i W).1 ≤ (shardRange pc i W).2).length =
    (pc + parts_per_branch pc W - 1) / parts_per_branch pc W)

/-- Outcome of one `upload_part_copy` call (lines 135-146): success, a
transient service failure, or the `PreconditionFailed` raised when
`CopySourceIfMatch=source_etag` no longer matches (line 141). -/
inductive CopyOutcome where
  | ok
  | transientError
  | preconditionFailed
deriving Repr, DecidableEq

/-- Storage operations the worker performs, as a trace: the
`find_next_missing_parts` query (lines 105-111) and the per-part
`upload_part_copy` calls of `copy_one_part` (lines 132-146), each recording
the upload-session id passed to the storage service. -/
inductive StoreOp where
  | listParts (uploadId : Option String) (partCount searchStart numParts : Nat)
  | copyPart (uploadId : Option String) (partId : Nat) (outcome : CopyOutcome)
deriving Repr, DecidableEq

/-- The state-dict fields read by `CopyWorkerTimedThread.run`: the slice
number, part count and upload id captured in `__init__` (lines 77-87) and
the optional `next`/`last` checkpoint entries (`_Key.NEXT_PART`,
`_Key.LAST_PART`), absent on the first invocation for a shard (line 93). -/
structure WorkerInput where
  sliceNum : Nat
  partCount : Nat
  uploadId : Option String
  nextPart : Option Nat
  lastPart : Option Nat
deriving Repr, DecidableEq

/-- The collaborator responses observed during one `run` invocation:
the list returned by `find_next_missing_parts` as a function of the search
start and count, the outcome of copying each part, and the order in which
the thread pool's futures complete (`completionOrder` applied to the
submitted queue; in a faithful run it is a permutation of it, since the
`with`-block of lines 124-127 waits for every submitted future). -/
structure WorkerEnv where
  missingParts : Nat → Nat → List Nat
  outcome : Nat → CopyOutcome
  completionOrder : List Nat → List Nat

/-- The checkpoint fields of the state dict returned by `run`. -/
structure WorkerResult where
  nextPart : Nat
  lastPart : Nat
  finished : Bool
deriving Repr, DecidableEq

/-- `CopyWorkerTimedThread.run` (lines 89-130) to normal completion, with its
trace of storage operations.  If the `next`/`last` checkpoint entries are
absent, both are computed from the shard plan (lines 93-99).  If
`next > last` the state is returned finished with no storage calls
(lines 101-103).  Otherwise the missing parts in `[next, last]` are queried
(lines 105-111) and a copy is submitted for each (lines 124-127).  The
`done` callback registered on each future fires once per completed future,
whether the copy succeeded or raised — but the callback of line 116
declares zero parameters while the futures machinery passes the future as
an argument, so each invocation raises a `TypeError` that the executor
swallows (`invokeDoneCallback`) and `next_part` is never modified during
the pool phase; the exceptions held by failed futures are likewise never
retrieved.  Finally `finished` is set `True` unconditionally (line 129). -/
def runWorker (W : Nat) (inp : WorkerInput) (env : WorkerEnv) :
    WorkerResult × List StoreOp :=
  let nl :=
    match inp.nextPart, inp.lastPart with
    | some n, some l => (n, l)
    | _, _ => shardRange inp.partCount inp.sliceNum W
  let next0 := nl.1
  let last0 := nl.2
  if next0 > last0 then
    ({ nextPart := next0, lastPart := last0, finished := true }, [])
  else
    let queue := env.missingParts next0 (last0 - next0 + 1)
    let copies := queue.map fun p => StoreOp.copyPart inp.uploadId p (env.outcome p)
    let completions := env.completionOrder queue
    let nextF := completions.foldl
      (fun np p => invokeDoneCallback (make_on_complete_callback p) np) next0
    ({ nextPart := nextF, lastPart := last0, finished := true },
      StoreOp.listParts inp.uploadId inp.partCount next0 (last0 - next0 + 1) :: copies)

/-- One part as returned by the finalizer's part listing
(`mpu.parts.all()`, line 181). -/
structure UploadedPart where
  e_tag : String
  part_number : Nat
deriving Repr, DecidableEq

/-- The state fields read by `join` (lines 176-197). -/
structure JoinState where
  sourceEtag : String
  uploadId : Option String
  partCount : Int
deriving Repr, DecidableEq

/-- The two `assert` failures of `join` (lines 183 and 195), named as in the
spec's error taxonomy. -/
inductive JoinError where
  | incompleteUpload
  | integrityMismatch
deriving Repr, DecidableEq

/-- The `mpu.complete(MultipartUpload=dict(Parts=parts_list))` commit call
(line 197) with its ordered `(ETag, PartNumber)` part list (lines 186-189). -/
structure CommitRequest where
  parts : List (String × Nat)
deriving Repr, DecidableEq

/-- Python `str.strip` of the quote character applied to an ETag
(`part.e_tag.strip` at line 192): drop every leading and trailing quote. -/
def stripQuotes (s : String) : String :=
  String.mk (((s.data.dropWhile fun c => c = Char.ofNat 34).reverse.dropWhile
    fun c => c = Char.ofNat 34).reverse)

/-- The composite ETag computation of `join` (lines 192-194):
`md5(b"".join(unhexlify(strip(etag)) for part in parts)).hexdigest() + "-" + str(len(parts))`,
with the MD5 hex digest and hex decoding supplied as abstract functions. -/
def compositeEtag (md5hex : List Nat → String) (unhex : String → List Nat)
    (parts : List UploadedPart) : String :=
  md5hex (List.flatten (parts.map fun p => unhex (stripQuotes p.e_tag))) ++ "-" ++
    toString parts.length

/-- `join` (lines 171-198): asserts the listed part count equals
`part_count`, then asserts the composite ETag equals the captured source
ETag, and only then commits the multipart upload with the full ordered part
list.  Each failed `assert` is an error raised before the commit. -/
def join (md5hex : List Nat → String) (unhex : String → List Nat)
    (st : JoinState) (parts : List UploadedPart) : Except JoinError CommitRequest :=
  if (parts.length : Int) = st.partCount then
    let partsList := parts.map fun p => (p.e_tag, p.part_number)
    if compositeEtag md5hex unhex parts = st.sourceEtag then
      Except.ok { parts := partsList }
    else
      Except.error JoinError.integrityMismatch
  else
    Except.error JoinError.incompleteUpload

end S3CopyClient

namespace S3CopyClient

/-- Helper: the `setup_copy_task` part count is the ceiling of
`source_size / part_size`, characterized by its two bounding inequalities
and the closed form `(source_size + part_size - 1) / part_size`. -/
lemma partCount_bounds (sourceSize partSize : Int)
    (_hsz : 0 ≤ sourceSize) (hps : 1 ≤ partSize) :
    computePartCount sourceSize partSize * partSize ≥ sourceSize ∧
    (computePartCount sourceSize partSize - 1) * partSize < sourceSize ∧
    computePartCount sourceSize partSize = (sourceSize + partSize - 1) / partSize := by
  have hps0 : (0 : Int) < partSize := by omega
  have hfd : Int.fdiv sourceSize partSize = sourceSize / partSize :=
    Int.fdiv_eq_ediv _ (by omega)
  have hdm : partSize * (sourceSize / partSize) + sourceSize % partSize = sourceSize :=
    Int.ediv_add_emod _ _
  have hr0 : 0 ≤ sourceSize % partSize := Int.emod_nonneg _ (by omega)
  have hr1 : sourceSize % partSize < partSize := Int.emod_lt_of_pos _ hps0
  set q := sourceSize / partSize with hq
  set r := sourceSize % partSize with hr
  have hclosed : (sourceSize + partSize - 1) / partSize =
      (if q * partSize < sourceSize then q + 1 else q) := by
    have hrw : sourceSize + partSize - 1 = (r + partSize - 1) + q * partSize := by
      linarith [hdm, mul_comm partSize q]
    rw [hrw, Int.add_mul_ediv_right _ _ (by omega : partSize ≠ 0)]
    by_cases hcase : r = 0
    · have h1 : (r + partSize - 1) / partSize = 0 :=
        Int.ediv_eq_zero_of_lt (by omega) (by omega)
      have h2 : ¬ q * partSize < sourceSize := by
        have := mul_comm q partSize
        omega
      rw [h1, if_neg h2]
      omega
    · have hrpos : 1 ≤ r := by omega
      have hrw2 : r + partSize - 1 = (r - 1) + 1 * partSize := by ring
      have h1 : (r + partSize - 1) / partSize = 1 := by
        rw [hrw2, Int.add_mul_ediv_right _ _ (by omega : partSize ≠ 0),
          Int.ediv_eq_zero_of_lt (by omega) (by omega)]
        omega
      have h2 : q * partSize < sourceSize := by
        have := mul_comm q partSize
        omega
      rw [h1, if_pos h2]
      omega
  have hmain : computePartCount sourceSize partSize =
      (if q * partSize < sourceSize then q + 1 else q) := by
    simp only [computePartCount]
    rw [hfd]
  rw [hmain]
  constructor
  · split
    · have : (q + 1) * partSize = partSize * q + partSize := by ring
      omega
    · have := mul_comm q partSize
      omega
  constructor
  · split
    · have : (q + 1 - 1) * partSize = q * partSize := by ring
      have := mul_comm q partSize
      omega
    · rename_i hcond
      have : (q - 1) * partSize = partSize * q - partSize := by ring
      omega
  · rw [hclosed]


/-- Claim C7: for every `total_size >= 0` and part size of the chunking
policy (any `part_size >= 1`), the initializer computes
`part_count = ceil(total_size / part_size)` — equivalently
`part_count * part_size >= total_size`, `(part_count - 1) * part_size <
total_size`, and in closed form `part_count = (total_size + part_size - 1) /
part_size`. -/
theorem computePartCount_is_ceil (sourceSize partSize : Int)
    (hsz : 0 ≤ sourceSize) (hps : 1 ≤ partSize) :
    computePartCount sourceSize partSize * partSize ≥ sourceSize ∧
    (computePartCount sourceSize partSize - 1) * partSize < sourceSize ∧
    computePartCount sourceSize partSize = (sourceSize + partSize - 1) / partSize :=
  partCount_bounds sourceSize partSize hsz hps

/-- Witness for C7 at `total_size = 10`, `part_size = 4`. -/
theorem computePartCount_is_ceil_witness :
    (0 : Int) ≤ 10 ∧ (1 : Int) ≤ 4 ∧
    (computePartCount 10 4 * 4 ≥ 10 ∧ (computePartCount 10 4 - 1) * 4 < 10 ∧
      computePartCount 10 4 = (10 + 4 - 1) / 4) :=
  ⟨by decide, by decide, computePartCount_is_ceil 10 4 (by decide) (by decide)⟩

/-- Claim C2: `join` commits the multipart upload exactly when both
integrity checks pass — it errors with `incompleteUpload` (the line-183
assert) before committing when the listed part count differs from
`part_count`, errors with `integrityMismatch` (the line-195 assert) before
committing when the composite ETag — the MD5 of the concatenated hex-decoded
part ETags suffixed with the part count — differs from the captured source
ETag, and any commit it does issue carries the full ordered part list. -/
theorem join_commits_only_verified (md5hex : List Nat → String)
    (unhex : String → List Nat) (st : JoinState) (parts : List UploadedPart) :
    ((∃ req, join md5hex unhex st parts = Except.ok req) ↔
      ((parts.length : Int) = st.partCount ∧
        compositeEtag md5hex unhex parts = st.sourceEtag)) ∧
    ((parts.length : Int) ≠ st.partCount →
      join md5hex unhex st parts = Except.error JoinError.incompleteUpload) ∧
    ((parts.length : Int) = st.partCount →
      compositeEtag md5hex unhex parts ≠ st.sourceEtag →
      join md5hex unhex st parts = Except.error JoinError.integrityMismatch) ∧
    (∀ req, join md5hex unhex st parts = Except.ok req →
      req.parts = parts.map fun p => (p.e_tag, p.part_number)) := by
  unfold join
  split_ifs with h1 h2 <;>
    simp_all

/-- Witness for C2: a listing whose length does not match `part_count` is
rejected with `incompleteUpload` before any commit. -/
theorem join_commits_only_verified_witness :
    ¬ ((([⟨"aa", 1⟩] : List UploadedPart).length : Int) = (2 : Int)) ∧
    join (fun _ => "d4") (fun _ => [])
        { sourceEtag := "d4-1", uploadId := some "u", partCount := 2 }
        [⟨"aa", 1⟩] = Except.error JoinError.incompleteUpload :=
  ⟨by decide,
    (join_commits_only_verified (fun _ => "d4") (fun _ => [])
      { sourceEtag := "d4-1", uploadId := some "u", partCount := 2 }
      [⟨"aa", 1⟩]).2.1 (by decide)⟩

/-- Claim C5 is refuted by the code at a concrete input: the guarded
advancement the claim describes is implemented in the callback **body** as
written (`onCompleteCallback 1 1 = 2`: a completion for part 1 with
`next_part = 1` would advance it to 2), but the callback is declared with
zero parameters (line 116) while `concurrent.futures` invokes every done
callback with the future as its single argument, so each invocation raises
a `TypeError` that the executor machinery swallows
(`invokeDoneCallback (make_on_complete_callback 1) 1 = 1`) and the body
never executes: after the successful copy and completion of part 1 in a
shard with `next_part = last_part = 1`, the worker still returns
`next_part = 1` — no completion ever triggers a checkpoint update. -/
theorem checkpointUpdateNeverRuns :
    onCompleteCallback 1 1 = 2 ∧
    invokeDoneCallback (make_on_complete_callback 1) 1 = 1 ∧
    (runWorker 32
      { sliceNum := 0, partCount := 1, uploadId := none,
        nextPart := some 1, lastPart := some 1 }
      { missingParts := fun _ _ => [1], outcome := fun _ => CopyOutcome.ok,
        completionOrder := fun q => q }).1 =
      { nextPart := 1, lastPart := 1, finished := true } := by
  refine ⟨rfl, rfl, rfl⟩

/-- Worker input for the failed-part-copy scenario: a one-part shard whose
checkpoint is `next = last = 1`. -/
def failInput : WorkerInput :=
  { sliceNum := 0, partCount := 1, uploadId := none,
    nextPart := some 1, lastPart := some 1 }

/-- Environment in which part 1 is missing at the destination and its
`upload_part_copy` call fails with a transient service error. -/
def failEnv : WorkerEnv :=
  { missingParts := fun _ _ => [1],
    outcome := fun _ => CopyOutcome.transientError,
    completionOrder := fun q => q }

/-- Claim C1 is refuted by the code at a concrete failing input: when the
copy of part 1 fails (the trace records the failed `upload_part_copy`), the
part is indeed left with `next_part = 1` unchanged — but not by the guarded
checkpoint logic: the exception stays inside the never-retrieved future,
and the worker nevertheless returns `finished = true` (line 129 sets it
unconditionally after the pool drains), so the Orchestrator's
`Branch` choice state sees `finished` and never re-invokes the worker — the
failed part is never retried and the failure surfaces nowhere, instead of
the worker returning its current **unfinished** checkpoint for the next
invocation to retry. -/
theorem partCopyFailureSwallowed :
    (runWorker 32 failInput failEnv).2 =
      [StoreOp.listParts none 1 1 1,
        StoreOp.copyPart none 1 CopyOutcome.transientError] ∧
    (runWorker 32 failInput failEnv).1 =
      { nextPart := 1, lastPart := 1, finished := true } := by
  constructor <;> rfl

/-- Environment in which part 1 is missing and its copy fails with the
`PreconditionFailed` of `CopySourceIfMatch` (changed source ETag). -/
def preconditionEnv : WorkerEnv :=
  { missingParts := fun _ _ => [1],
    outcome := fun _ => CopyOutcome.preconditionFailed,
    completionOrder := fun q => q }

/-- Environment identical to `preconditionEnv` except every copy succeeds. -/
def successEnv : WorkerEnv :=
  { missingParts := fun _ _ => [1],
    outcome := fun _ => CopyOutcome.ok,
    completionOrder := fun q => q }

/-- Claim C4 is refuted by the code at a concrete failing input: a
`PreconditionFailed` from `CopySourceIfMatch` (the source ETag changed
mid-copy) is raised inside a thread-pool future whose exception is never
retrieved — and the done callback that could have observed the completion
dies of its own swallowed arity `TypeError` — so the worker's returned
state is identical to that of a fully successful run: `finished = true`
and `next_part` left at 1 in both.  No distinct fatal error (indeed no
error at all) surfaces to the caller. -/
theorem preconditionFailure_not_surfaced :
    (runWorker 32 failInput preconditionEnv).1 =
      (runWorker 32 failInput successEnv).1 ∧
    ((runWorker 32 failInput preconditionEnv).1).finished = true ∧
    ((runWorker 32 failInput preconditionEnv).1).nextPart = 1 := by
  refine ⟨rfl, rfl, rfl⟩

/-- Worker input whose range `[1, 1]` is not yet exhausted. -/
def presentInput : WorkerInput :=
  { sliceNum := 0, partCount := 2, uploadId := some "u",
    nextPart := some 1, lastPart := some 1 }

/-- Environment in which every part of the shard is already present at the
destination, so `find_next_missing_parts` returns the empty list. -/
def presentEnv : WorkerEnv :=
  { missingParts := fun _ _ => [],
    outcome := fun _ => CopyOutcome.ok,
    completionOrder := fun q => q }

/-- Claim C6 is refuted by the code at a concrete input: a worker whose
shard range `[1, 1]` is not exhausted (`next_part = 1 <= last_part = 1`) but
whose parts are all already present at the destination returns
`finished = true` with `next_part = 1 <= last_part` — line 129 sets
`finished` unconditionally after the thread pool drains, so `finished =
true` does not imply `next_part > last_part`. -/
theorem finished_without_exhausted_range :
    ((runWorker 32 presentInput presentEnv).1).finished = true ∧
    ((runWorker 32 presentInput presentEnv).1).nextPart = 1 ∧
    ¬ ((runWorker 32 presentInput presentEnv).1).nextPart >
        ((runWorker 32 presentInput presentEnv).1).lastPart := by
  refine ⟨rfl, rfl, by decide⟩

/-- Claim C6 as amended: every normal completion of `run` returns
`finished = true` (whether or not `next_part > last_part`), and a shard
whose checkpointed range is already exhausted at entry
(`next_part > last_part`) returns immediately — `finished = true`, the
checkpoint unchanged and no storage operation performed.  Only the
deadline-truncation path of the surrounding `TimedThread` (outside this
core) yields `finished = false`. -/
theorem run_always_finishes (W : Nat) (inp : WorkerInput) (env : WorkerEnv) :
    (((runWorker W inp env).1).finished = true) ∧
    (∀ n l : Nat, inp.nextPart = some n → inp.lastPart = some l → l < n →
      runWorker W inp env =
        ({ nextPart := n, lastPart := l, finished := true }, [])) := by
  constructor
  · unfold runWorker
    split <;> (dsimp only; split <;> rfl)
  · intro n l hn hl hlt
    simp only [runWorker, hn, hl]
    rw [if_pos (by omega)]

/-- Witness for C6 as amended, at a shard with `next = 2 > last = 1`. -/
theorem run_always_finishes_witness :
    (((runWorker 32
        { sliceNum := 0, partCount := 4, uploadId := some "u",
          nextPart := some 2, lastPart := some 1 } presentEnv).1).finished = true) ∧
    runWorker 32
        { sliceNum := 0, partCount := 4, uploadId := some "u",
          nextPart := some 2, lastPart := some 1 } presentEnv =
      ({ nextPart := 2, lastPart := 1, finished := true }, []) :=
  ⟨(run_always_finishes 32
      { sliceNum := 0, partCount := 4, uploadId := some "u",
        nextPart := some 2, lastPart := some 1 } presentEnv).1,
    (run_always_finishes 32
      { sliceNum := 0, partCount := 4, uploadId := some "u",
        nextPart := some 2, lastPart := some 1 } presentEnv).2 2 1 rfl rfl
      (by decide)⟩

/-- Claim C10: a job with `part_count = 1` (hence a null upload-session id)
whose single part is not yet present at the destination goes through exactly
the multipart code path of `run`: the trace is the
`find_next_missing_parts` query followed by one `upload_part_copy` per
missing part, both invoked with the null session id — there is no separate
single-shot branch. -/
theorem singleShotFollowsMultipartPath (W : Nat) (inp : WorkerInput)
    (env : WorkerEnv) (n l : Nat) (hup : inp.uploadId = none)
    (hpc : inp.partCount = 1) (hn : inp.nextPart = some n)
    (hl : inp.lastPart = some l) (hnl : n ≤ l) :
    (runWorker W inp env).2 =
      StoreOp.listParts none 1 n (l - n + 1) ::
        (env.missingParts n (l - n + 1)).map
          (fun p => StoreOp.copyPart none p (env.outcome p)) := by
  simp only [runWorker, hn, hl, hup, hpc]
  rw [if_neg (by omega)]

/-- Witness for C10: a one-part job whose part 1 is missing and copied. -/
theorem singleShotFollowsMultipartPath_witness :
    (runWorker 32
      { sliceNum := 0, partCount := 1, uploadId := none,
        nextPart := some 1, lastPart := some 1 }
      { missingParts := fun _ _ => [1], outcome := fun _ => CopyOutcome.ok,
        completionOrder := fun q => q }).2 =
      [StoreOp.listParts none 1 1 1, StoreOp.copyPart none 1 CopyOutcome.ok] :=
  singleShotFollowsMultipartPath 32
    { sliceNum := 0, partCount := 1, uploadId := none,
      nextPart := some 1, lastPart := some 1 }
    { missingParts := fun _ _ => [1], outcome := fun _ => CopyOutcome.ok,
      completionOrder := fun q => q }
    1 1 rfl rfl rfl rfl (by decide)

/-- Claim C9's zero-size boundary is refuted by the code: for
`total_size = 0` (any part size, here 5) the initializer computes
`part_count = 0` — `0 // 5 = 0` and `0 * 5 < 0` is false — not
`part_count = 1` as claimed; no multipart session is opened and
`finished = false`. -/
theorem zeroSizePartCountIsZero :
    (setup_copy_task "uid" "etag" 0 5).partCount = 0 ∧
    ¬ (setup_copy_task "uid" "etag" 0 5).partCount = 1 ∧
    (setup_copy_task "uid" "etag" 0 5).uploadId = none ∧
    (setup_copy_task "uid" "etag" 0 5).finished = false := by
  refine ⟨by decide, by decide, by decide, by decide⟩

/-- Claim C9 as amended: the initializer records the opened session id if
and only if `part_count > 1`; when `part_count = 1` the session id is null;
a source with `1 <= total_size <= part_size` yields `part_count = 1` and no
session; a source with `total_size = 0` yields `part_count = 0` (not 1) and
no session; and the returned state always has `finished = false`. -/
theorem setupSessionIffMultipart (uid etag : String) (size ps : Int)
    (h0 : 0 ≤ size) (h1 : 1 ≤ ps) :
    ((setup_copy_task uid etag size ps).uploadId = some uid ↔
      1 < (setup_copy_task uid etag size ps).partCount) ∧
    ((setup_copy_task uid etag size ps).partCount = 1 →
      (setup_copy_task uid etag size ps).uploadId = none) ∧
    (1 ≤ size → size ≤ ps →
      (setup_copy_task uid etag size ps).partCount = 1 ∧
      (setup_copy_task uid etag size ps).uploadId = none) ∧
    (size = 0 →
      (setup_copy_task uid etag size ps).partCount = 0 ∧
      (setup_copy_task uid etag size ps).uploadId = none) ∧
    (setup_copy_task uid etag size ps).finished = false := by
  obtain ⟨hub, hlb, -⟩ := partCount_bounds size ps h0 h1
  have hps0 : (0 : Int) < ps := by omega
  have hpc1 : 1 ≤ size → size ≤ ps → computePartCount size ps = 1 := by
    intro hs1 hsps
    have hpos : 1 ≤ computePartCount size ps := by
      by_contra hcon
      push_neg at hcon
      have : computePartCount size ps * ps ≤ 0 * ps :=
        mul_le_mul_of_nonneg_right (by omega) (by omega)
      simp at this
      omega
    have hle : computePartCount size ps ≤ 1 := by
      by_contra hcon
      push_neg at hcon
      have : 1 * ps ≤ (computePartCount size ps - 1) * ps :=
        mul_le_mul_of_nonneg_right (by omega) (by omega)
      simp at this
      omega
    omega
  have hpc0 : size = 0 → computePartCount size ps = 0 := by
    intro hs
    subst hs
    simp [computePartCount, Int.zero_fdiv]
  simp only [setup_copy_task]
  refine ⟨?_, ?_, ?_, ?_, trivial⟩
  · by_cases hc : 1 < computePartCount size ps <;> simp [hc]
  · intro hone
    rw [if_neg (by omega)]
  · intro hs1 hsps
    have hone := hpc1 hs1 hsps
    exact ⟨hone, by rw [if_neg (by omega)]⟩
  · intro hs
    have hzero := hpc0 hs
    exact ⟨hzero, by rw [if_neg (by omega)]⟩

/-- Witness for C9 as amended at `total_size = 3`, `part_size = 5`. -/
theorem setupSessionIffMultipart_witness :
    (((setup_copy_task "uid" "etag" 3 5).uploadId = some "uid" ↔
      1 < (setup_copy_task "uid" "etag" 3 5).partCount) ∧
    ((setup_copy_task "uid" "etag" 3 5).partCount = 1 →
      (setup_copy_task "uid" "etag" 3 5).uploadId = none) ∧
    (1 ≤ (3 : Int) → (3 : Int) ≤ 5 →
      (setup_copy_task "uid" "etag" 3 5).partCount = 1 ∧
      (setup_copy_task "uid" "etag" 3 5).uploadId = none) ∧
    ((3 : Int) = 0 →
      (setup_copy_task "uid" "etag" 3 5).partCount = 0 ∧
      (setup_copy_task "uid" "etag" 3 5).uploadId = none) ∧
    (setup_copy_task "uid" "etag" 3 5).finished = false) :=
  setupSessionIffMultipart "uid" "etag" 3 5 (by decide) (by decide)

/-- Helper: the non-empty blocks of `List.range n` under the predicate
`i < K` number `min K n`. -/
lemma length_filter_range_lt (K : Nat) :
    ∀ n : Nat, ((List.range n).filter fun i => decide (i < K)).length = min K n := by
  intro n
  induction n with
  | zero => simp
  | succ n ih =>
    rw [List.range_succ, List.filter_append]
    simp only [List.length_append, ih]
    by_cases h : n < K <;> simp [h] <;> omega

/-- Claim C3's block count is refuted by the code at `part_count = 5`,
`W = 4`: `parts_per_branch = ceil(5/4) = 2` gives ranges
`[1,2], [3,4], [5,5], [7,5]`, i.e. only 3 non-empty blocks, not
`min(W, part_count) = 4`. -/
theorem shardCount_not_min :
    ¬ (((List.range 4).filter fun i =>
        (shardRange 5 i 4).1 ≤ (shardRange 5 i 4).2).length = min 4 5) := by
  decide

/-- Claim C3 as amended: for every `part_count ≥ 1` and worker count
`W ≥ 1`, the shard ranges of workers `0 .. W-1` are contiguous, pairwise
disjoint, non-empty blocks of size `ppb = ceil(part_count/W)` except
possibly the last non-empty one, and their union is exactly
`[1, part_count]`; but the number of non-empty blocks is
`ceil(part_count / ppb)`, which can be less than `min(W, part_count)`. -/
theorem shardRanges_partition (pc W : Nat) (hpc : 1 ≤ pc) (hW : 1 ≤ W) :
    ShardPartition pc W := by
  have hW0 : 0 < W := hW
  obtain ⟨ppb, hppb⟩ : ∃ x, parts_per_branch pc W = x := ⟨_, rfl⟩
  have hppb1 : 1 ≤ ppb := by
    rw [← hppb]
    unfold parts_per_branch
    rw [Nat.le_div_iff_mul_le hW0]
    omega
  have hppb0 : 0 < ppb := hppb1
  have hWppb : pc ≤ W * ppb := by
    have h := (Nat.div_lt_iff_lt_mul hW0).mp
      (show (pc + W - 1) / W < ppb + 1 by
        unfold parts_per_branch at hppb
        omega)
    rw [Nat.succ_mul] at h
    rw [Nat.mul_comm]
    generalize ppb * W = M at h ⊢
    omega
  have hsr : ∀ i : Nat, shardRange pc i W =
      (i * ppb + 1, min pc (i * ppb + 1 + ppb - 1)) := by
    intro i
    simp only [shardRange]
    rw [hppb]
  refine ⟨?_, ?_, ?_, ?_, ?_, ?_, ?_⟩
  · intro i j hij
    rw [hsr i, hsr j]
    have hmul : (i + 1) * ppb ≤ j * ppb := Nat.mul_le_mul_right _ hij
    rw [Nat.succ_mul] at hmul
    generalize i * ppb = M at hmul ⊢
    generalize j * ppb = N at hmul ⊢
    omega
  · intro i p h1 h2
    rw [hsr i] at h1 h2
    generalize i * ppb = M at h1 h2
    omega
  · intro p hp1 hp2
    refine ⟨(p - 1) / ppb, ?_, ?_, ?_⟩
    · rw [Nat.div_lt_iff_lt_mul hppb0]
      generalize W * ppb = M at hWppb ⊢
      omega
    · rw [hsr]
      have h3 : (p - 1) / ppb * ppb ≤ p - 1 := Nat.div_mul_le_self _ _
      generalize (p - 1) / ppb * ppb = M at h3 ⊢
      omega
    · rw [hsr]
      have h4 : p - 1 < ((p - 1) / ppb + 1) * ppb :=
        (Nat.div_lt_iff_lt_mul hppb0).mp (Nat.lt_succ_self _)
      rw [Nat.succ_mul] at h4
      generalize (p - 1) / ppb * ppb = M at h4 ⊢
      omega
  · intro i
    rw [hsr i, hsr (i + 1), hppb]
    simp only
    rw [Nat.succ_mul]
    generalize i * ppb = M
    omega
  · intro i hfit
    rw [hppb] at hfit
    rw [hsr i, hppb]
    simp only
    rw [Nat.succ_mul] at hfit
    generalize i * ppb = M at hfit ⊢
    omega
  · intro i
    rw [hsr i, hppb]
    simp only
    generalize i * ppb = M
    omega
  · have hK : ∀ i : Nat, (i * ppb + 1 ≤ pc) ↔ (i < (pc - 1) / ppb + 1) := by
      intro i
      rw [Nat.lt_succ_iff, Nat.le_div_iff_mul_le hppb0]
      omega
    have hcongr : (List.range W).filter
        (fun i => decide ((shardRange pc i W).1 ≤ (shardRange pc i W).2)) =
        (List.range W).filter (fun i => decide (i < (pc - 1) / ppb + 1)) := by
      apply List.filter_congr
      intro i _
      apply decide_eq_decide.mpr
      rw [hsr i]
      simp only
      rw [← hK i]
      generalize i * ppb = M
      omega
    rw [hppb, hcongr, length_filter_range_lt]
    have hle : (pc - 1) / ppb + 1 ≤ W := by
      have h5 : (pc - 1) / ppb < W := by
        rw [Nat.div_lt_iff_lt_mul hppb0]
        generalize W * ppb = M at hWppb ⊢
        omega
      omega
    rw [Nat.min_eq_left hle]
    have hceil : pc + ppb - 1 = (pc - 1) + ppb := by omega
    rw [hceil, Nat.add_div_right _ hppb0]

/-- Witness for C3 as amended at `part_count = 5`, `W = 4`. -/
theorem shardRanges_partition_witness : ShardPartition 5 4 :=
  shardRanges_partition 5 4 (by decide) (by decide)

/-- Claim C8: for every part `p` in `[1, part_count]` the computed byte
range is `[(p-1)*part_size, min(p*part_size, size) - 1]`; the ranges of
parts `1 .. part_count` are contiguous, pairwise disjoint and cover exactly
the bytes `[0, size - 1]`. -/
theorem partRanges_partition_bytes (size partSize : Int)
    (hsz : 0 ≤ size) (hps : 1 ≤ partSize) :
    PartRangesPartition size partSize := by
  obtain ⟨hub, hlb, -⟩ := partCount_bounds size partSize hsz hps
  obtain ⟨pc, hpc⟩ : ∃ x, computePartCount size partSize = x := ⟨_, rfl⟩
  rw [hpc] at hub hlb
  have hstart : ∀ p : Int,
      (calculate_range_for_part size partSize p).1 = (p - 1) * partSize :=
    fun _ => rfl
  have hend : ∀ p : Int,
      (calculate_range_for_part size partSize p).2 = min (p * partSize) size - 1 := by
    intro p
    simp only [calculate_range_for_part]
    split
    · rename_i h
      rw [min_eq_right h]
    · rename_i h
      push_neg at h
      rw [min_eq_left (le_of_lt h)]
  unfold PartRangesPartition
  rw [hpc]
  refine ⟨fun p hp1 hp2 => ⟨hstart p, hend p⟩, ?_, ?_, ?_⟩
  · intro p hp1 hp2
    rw [hstart, hend]
    have h2 : p * partSize ≤ (pc - 1) * partSize :=
      mul_le_mul_of_nonneg_right (by omega) (by omega)
    rw [min_eq_left (by linarith)]
    have h4 : (p + 1 - 1) * partSize = p * partSize := by ring
    linarith
  · intro p q hp1 hpq hq
    rw [hend, hstart]
    have h5 : p * partSize ≤ (q - 1) * partSize :=
      mul_le_mul_of_nonneg_right (by omega) (by omega)
    have h6 : min (p * partSize) size ≤ p * partSize := min_le_left _ _
    linarith
  · intro b
    constructor
    · rintro ⟨hb0, hb1⟩
      refine ⟨b / partSize + 1, ?_, ?_, ?_, ?_⟩
      · have := Int.ediv_nonneg hb0 (by omega : (0 : Int) ≤ partSize)
        omega
      · have h7 : b / partSize < pc := by
          rw [Int.ediv_lt_iff_lt_mul (by omega : (0 : Int) < partSize)]
          linarith
        omega
      · rw [hstart]
        have h8 : b / partSize * partSize ≤ b :=
          Int.ediv_mul_le b (by omega : partSize ≠ 0)
        have h9 : (b / partSize + 1 - 1) * partSize = b / partSize * partSize := by
          ring
        linarith
      · rw [hend]
        have h10 : b < (b / partSize + 1) * partSize :=
          Int.lt_ediv_add_one_mul_self b (by omega : (0 : Int) < partSize)
        have h11 : b + 1 ≤ min ((b / partSize + 1) * partSize) size :=
          le_min (by linarith) (by linarith)
        linarith
    · rintro ⟨p, hp1, hp2, hs, he⟩
      rw [hstart] at hs
      rw [hend] at he
      have h12 : 0 ≤ (p - 1) * partSize :=
        mul_nonneg (by omega) (by omega)
      have h13 : min (p * partSize) size ≤ size := min_le_right _ _
      constructor <;> linarith

/-- Witness for C8 at `size = 10`, `part_size = 4`. -/
theorem partRanges_partition_bytes_witness : PartRangesPartition 10 4 :=
  partRanges_partition_bytes 10 4 (by decide) (by decide)

end S3CopyClient
